import Mathlib

/-!
Verification of the usys time/cron core (`inc/usystime.h`, `src/usystime.c`).

The C code works over the fixed-width machine types `clock_t = unsigned long`
and `sclock_t = long`.  We embed them shallowly, parameterized by the bit
width `w`: unsigned values are naturals `< 2^w` with every arithmetic
operation reduced `% 2^w`, and signed values are integers in
`[-2^(w-1), 2^(w-1))` with two's-complement wraparound.  The static state of
`usystime.c` (`__ticks`, `__sticks`, `__now`, `_ext_time`, `_ext_settime`,
`_crontab`) becomes a structure, and each C function becomes a pure function
on that structure.  Cron callbacks are opaque values of a type `α`; a
dispatcher invocation returns, besides the new state, the list of callbacks
it invoked, in table order.
-/

namespace Usys

/-- Unsigned w-bit addition (C `unsigned long` arithmetic, reduced mod `2^w`). -/
def uadd (w a b : Nat) : Nat := (a + b) % 2 ^ w

/-- Unsigned w-bit subtraction: `a - b` in C unsigned arithmetic, i.e.
`(a + 2^w - b) % 2^w` for operands already reduced. -/
def usub (w a b : Nat) : Nat := (a + (2 ^ w - b % 2 ^ w)) % 2 ^ w

/-- `ULONG_MAX` for width `w` (the header's `_CLOCK_T_MAX_VALUE_`). -/
def ULONG_MAX (w : Nat) : Nat := 2 ^ w - 1

/-- `_CLOCK_DIFF(_t2_, _t1_)` from `usystime.h:107`:
`( ((_t2_)>(_t1_)) ? ((_t2_)-(_t1_)) : (_CLOCK_T_MAX_VALUE_ - ((_t1_) - (_t2_)) + 1) )`,
with every operation performed in w-bit unsigned arithmetic. -/
def CLOCK_DIFF (w t2 t1 : Nat) : Nat :=
  if t1 < t2 then usub w t2 t1
  else uadd w (usub w (ULONG_MAX w) (usub w t1 t2)) 1

/-- `LONG_MAX` for width `w` (the header's `_SCLOCK_T_MAX_VALUE_`). -/
def LONG_MAX (w : Nat) : Int := 2 ^ (w - 1) - 1

/-- `LONG_MIN` for width `w` (the header's `_SCLOCK_T_MIN_VALUE_`). -/
def LONG_MIN (w : Nat) : Int := -(2 ^ (w - 1) : Int)

/-- Normalize an integer to the w-bit two's-complement range
`[-2^(w-1), 2^(w-1))`; models the wrapping of each signed operation. -/
def toSigned (w : Nat) (x : Int) : Int :=
  (x + 2 ^ (w - 1)) % 2 ^ w - 2 ^ (w - 1)

/-- `_SCLOCK_DIFF(_t2_, _t1_)` from `usystime.h:124`:
`( ((_t2_)>(_t1_)) ? ((_t2_)-(_t1_)) : ((_SCLOCK_T_MAX_VALUE_ - _SCLOCK_T_MIN_VALUE_) - ((_t1_) - (_t2_)) + 1) )`,
with every operation performed in w-bit signed (wrapping) arithmetic. -/
def SCLOCK_DIFF (w : Nat) (t2 t1 : Int) : Int :=
  if t1 < t2 then toSigned w (t2 - t1)
  else toSigned w
    (toSigned w (toSigned w (LONG_MAX w - LONG_MIN w) - toSigned w (t1 - t2)) + 1)

/-- `USYS_CRONTAB_ENTRIES` from `usystime.h:42`. -/
def USYS_CRONTAB_ENTRIES : Nat := 10

/-- `crontab_t` from `usystime.h:139`: a cron slot.  `fn` models the
function pointer `fun` (`none` is the NULL / empty marker), `tic` the period. -/
structure crontab_t (α : Type) where
  fn : Option α
  tic : Nat
  deriving Repr, DecidableEq

/-- `ext_time_ft`: external `time()` provider.  Its argument tells whether the
caller's `timer` pointer is non-null; it yields the returned time and the
value (if any) stored through that pointer. -/
def ext_time_ft : Type := Bool → Int × Option Int

/-- `ext_settime_ft`: external `settime()` forwarder.  Its argument is the
value pointed to by the caller's pointer (`none` for NULL); it yields the
returned status. -/
def ext_settime_ft : Type := Option Int → Int

/-- The static state of `usystime.c`: `__ticks`, `__sticks`, `__now`,
`_ext_time`, `_ext_settime` and `_crontab`. -/
structure UsysState (α : Type) where
  __ticks : Nat
  __sticks : Int
  __now : Int
  _ext_time : Option ext_time_ft
  _ext_settime : Option ext_settime_ft
  _crontab : List (crontab_t α)

/-- The zero-initialized state of the C translation unit: counters zero,
both external hooks NULL, every cron slot `{NULL, 0}`. -/
def initState (α : Type) : UsysState α :=
  { __ticks := 0
    __sticks := 0
    __now := 0
    _ext_time := none
    _ext_settime := none
    _crontab := List.replicate USYS_CRONTAB_ENTRIES ⟨none, 0⟩ }

/-- The cron scan of `SysTick_Callback` (`usystime.c:76-79`): every occupied
slot whose period divides the current tick value fires, in table order. -/
def cronDue (t : Nat) (tab : List (crontab_t α)) : List α :=
  tab.filterMap fun e =>
    match e.fn with
    | some cb => if t % e.tic = 0 then some cb else none
    | none => none

/-- `SysTick_Callback` (`usystime.c:65-80`): increment `__ticks` and
`__sticks`, bump `__now` on a second boundary when no external time provider
is installed, then scan the cron table.  Returns the new state and the list
of callbacks invoked, in table order. -/
def SysTick_Callback (w freq : Nat) (s : UsysState α) : UsysState α × List α :=
  ({ s with
      __ticks := (s.__ticks + 1) % 2 ^ w
      __sticks := toSigned w (s.__sticks + 1)
      __now :=
        if s._ext_time.isNone ∧ ((s.__ticks + 1) % 2 ^ w) % freq = 0
        then s.__now + 1 else s.__now },
    cronDue ((s.__ticks + 1) % 2 ^ w) s._crontab)

/-- The state after `k` consecutive `SysTick_Callback` invocations. -/
def sysTickN (w freq : Nat) (s : UsysState α) : Nat → UsysState α
  | 0 => s
  | k + 1 => (SysTick_Callback w freq (sysTickN w freq s k)).1

/-- The callback lists fired by `k` consecutive dispatcher invocations,
oldest first. -/
def sysTickTraces (w freq : Nat) (s : UsysState α) : Nat → List (List α)
  | 0 => []
  | k + 1 =>
    sysTickTraces w freq s k ++ [(SysTick_Callback w freq (sysTickN w freq s k)).2]

/-- The 1-based dispatcher invocation indices among the first `k`, starting
from state `s`, at which callback `cb` is invoked. -/
def firedSteps [DecidableEq α] (w freq : Nat) (s : UsysState α) (cb : α) (k : Nat) :
    List Nat :=
  (sysTickTraces w freq s k).enum.filterMap fun p =>
    if cb ∈ p.2 then some (p.1 + 1) else none

/-- `usys_set_rtc_time` (`usystime.c:94-96`): install the external `time()`
provider, ignoring a NULL argument. -/
def usys_set_rtc_time (s : UsysState α) (f : Option ext_time_ft) : UsysState α :=
  match f with
  | some g => { s with _ext_time := some g }
  | none => s

/-- `usys_set_rtc_settime` (`usystime.c:106-108`): install the external
`settime()` forwarder, ignoring a NULL argument. -/
def usys_set_rtc_settime (s : UsysState α) (f : Option ext_settime_ft) : UsysState α :=
  match f with
  | some g => { s with _ext_settime := some g }
  | none => s

/-- `clock` (`usystime.c:123-125`). -/
def clock (s : UsysState α) : Nat := s.__ticks

/-- `setclock` (`usystime.c:138-140`); the argument is a `clock_t`, i.e.
already reduced to w bits. -/
def setclock (w : Nat) (s : UsysState α) (c : Nat) : Nat × UsysState α :=
  (c % 2 ^ w, { s with __ticks := c % 2 ^ w })

/-- `sclock` (`usystime.c:151-153`). -/
def sclock (s : UsysState α) : Int := s.__sticks

/-- `setsclock` (`usystime.c:166-168`). -/
def setsclock (w : Nat) (s : UsysState α) (c : Int) : Int × UsysState α :=
  (toSigned w c, { s with __sticks := toSigned w c })

/-- `time` (`usystime.c:179-187`).  The argument tells whether the caller's
`timer` pointer is non-null; the result is the returned time together with
the value stored through that pointer (`none` when nothing is stored). -/
def time (s : UsysState α) (timer : Bool) : Int × Option Int :=
  match s._ext_time with
  | some f => f timer
  | none => (s.__now, if timer then some s.__now else none)

/-- `settime` (`usystime.c:200-212`).  The argument is the value pointed to
by `t` (`none` for a NULL pointer); the result is the returned status and
the new state. -/
def settime (s : UsysState α) (t : Option Int) : Int × UsysState α :=
  match s._ext_settime with
  | some f => (f t, s)
  | none =>
    match t with
    | some v => (0, { s with __now := v })
    | none => (-1, s)

/-- The table update of `service_add` (`usystime.c:228-233`): occupy the
first empty slot (NULL `fun`) with `{pfun, tic}`; if none is empty the table
is left as is. -/
def service_add_tab (tab : List (crontab_t α)) (pfun : Option α) (tic : Nat) :
    List (crontab_t α) :=
  match tab with
  | [] => []
  | e :: rest =>
    match e.fn with
    | none => ⟨pfun, tic⟩ :: rest
    | some _ => e :: service_add_tab rest pfun tic

/-- `service_add` (`usystime.c:225-234`). -/
def service_add (s : UsysState α) (pfun : Option α) (tic : Nat) : UsysState α :=
  { s with _crontab := service_add_tab s._crontab pfun tic }

/-- `service_rem` (`usystime.c:242-248`): clear (set to NULL) the `fun`
field of every slot whose `fun` equals the argument, keeping `tic`. -/
def service_rem [DecidableEq α] (s : UsysState α) (pfun : Option α) : UsysState α :=
  { s with
    _crontab := s._crontab.map fun e => if e.fn = pfun then { e with fn := none } else e }

/-- The public mutating operations of the usys API, used to quantify over
arbitrary foreground/interrupt call sequences. -/
inductive Op (α : Type) where
  | tick
  | set_rtc_time (f : Option ext_time_ft)
  | set_rtc_settime (f : Option ext_settime_ft)
  | do_settime (t : Option Int)
  | do_setclock (c : Nat)
  | do_setsclock (c : Int)
  | svc_add (p : Option α) (tic : Nat)
  | svc_rem (p : Option α)

/-- Interpret one API operation as a state transformer. -/
def runOp [DecidableEq α] (w freq : Nat) (s : UsysState α) : Op α → UsysState α
  | Op.tick => (SysTick_Callback w freq s).1
  | Op.set_rtc_time f => usys_set_rtc_time s f
  | Op.set_rtc_settime f => usys_set_rtc_settime s f
  | Op.do_settime t => (settime s t).2
  | Op.do_setclock c => (setclock w s c).2
  | Op.do_setsclock c => (setsclock w s c).2
  | Op.svc_add p tic => service_add s p tic
  | Op.svc_rem p => service_rem s p

/-- Interpret a sequence of API operations, oldest first. -/
def runOps [DecidableEq α] (w freq : Nat) (ops : List (Op α)) (s : UsysState α) :
    UsysState α :=
  ops.foldl (runOp w freq) s

/-- The concrete cron scenario of the spec: register `(cb = 0, period = 5)`
on the pristine state. -/
def sC3 : UsysState Nat := service_add (initState Nat) (some 0) 5

/-- A state whose cron table is full (all `USYS_CRONTAB_ENTRIES` slots
occupied). -/
def sFull : UsysState Nat :=
  { initState Nat with _crontab := List.replicate USYS_CRONTAB_ENTRIES ⟨some 1, 7⟩ }

/-- A sample external `time()` provider. -/
def fExt : ext_time_ft := fun _ => (42, none)

/-- Another sample external `time()` provider. -/
def fExt2 : ext_time_ft := fun _ => (9, none)

/-- A sample external `settime()` forwarder. -/
def gExt : ext_settime_ft := fun _ => 7

/-- The pristine state with the external `time()` provider installed. -/
def sC5 : UsysState Nat := usys_set_rtc_time (initState Nat) (some fExt)

/-! ### Wrap-difference arithmetic (claims C1, C2) -/

lemma two_pow_pos (w : Nat) : 0 < 2 ^ w := Nat.pos_pow_of_pos w (by norm_num)

lemma usub_eq_of_le (w : Nat) {a b : Nat} (hb : b ≤ a) (ha : a < 2 ^ w) :
    usub w a b = a - b := by
  have hblt : b < 2 ^ w := lt_of_le_of_lt hb ha
  unfold usub
  rw [Nat.mod_eq_of_lt hblt]
  have h : a + (2 ^ w - b) = (a - b) + 2 ^ w := by omega
  rw [h, Nat.add_mod_right, Nat.mod_eq_of_lt (by omega)]

lemma clock_diff_eq (w : Nat) {t1 t2 : Nat} (h1 : t1 < 2 ^ w) (h2 : t2 < 2 ^ w) :
    CLOCK_DIFF w t2 t1 = (t2 + (2 ^ w - t1)) % 2 ^ w := by
  have hpow : 0 < 2 ^ w := two_pow_pos w
  unfold CLOCK_DIFF
  split
  · rename_i hlt
    rw [usub_eq_of_le w (le_of_lt hlt) h2]
    have h : t2 + (2 ^ w - t1) = (t2 - t1) + 2 ^ w := by omega
    rw [h, Nat.add_mod_right, Nat.mod_eq_of_lt (by omega)]
  · rename_i hge
    have hle : t2 ≤ t1 := by omega
    rw [usub_eq_of_le w hle h1]
    have hsub : t1 - t2 ≤ ULONG_MAX w := by unfold ULONG_MAX; omega
    have hmax : ULONG_MAX w < 2 ^ w := by unfold ULONG_MAX; omega
    rw [usub_eq_of_le w hsub hmax]
    unfold uadd ULONG_MAX
    congr 1
    omega

/-- C1: `_CLOCK_DIFF(newer, older)` on w-bit unsigned samples equals
`newer - older` when `newer >= older` (in particular `0` at equality, via the
wraparound of `MAX + 1`), equals `MAX - older + newer + 1` reduced mod `2^w`
when `newer <= older`, and in all cases returns the non-negative elapsed tick
count `e` whenever `newer` is `older` advanced by `e < 2^w` ticks. -/
theorem clock_diff_spec (w t1 t2 : Nat) (h1 : t1 < 2 ^ w) (h2 : t2 < 2 ^ w) :
    (t1 ≤ t2 → CLOCK_DIFF w t2 t1 = t2 - t1) ∧
    (t2 ≤ t1 → CLOCK_DIFF w t2 t1 = (ULONG_MAX w - t1 + t2 + 1) % 2 ^ w) ∧
    (∀ e, e < 2 ^ w → t2 = (t1 + e) % 2 ^ w → CLOCK_DIFF w t2 t1 = e) := by
  have hpow : 0 < 2 ^ w := two_pow_pos w
  refine ⟨?_, ?_, ?_⟩
  · intro hle
    rw [clock_diff_eq w h1 h2]
    have h : t2 + (2 ^ w - t1) = (t2 - t1) + 2 ^ w := by omega
    rw [h, Nat.add_mod_right, Nat.mod_eq_of_lt (by omega)]
  · intro hge
    rw [clock_diff_eq w h1 h2]
    unfold ULONG_MAX
    congr 1
    omega
  · intro e he ht2
    subst ht2
    rw [clock_diff_eq w h1 (Nat.mod_lt _ hpow)]
    rw [Nat.mod_add_mod]
    have h : t1 + e + (2 ^ w - t1) = e + 2 ^ w := by omega
    rw [h, Nat.add_mod_right, Nat.mod_eq_of_lt he]

/-- Witness for C1 at the spec's own 8-bit scenario: `wrap_diff(3, 253) = 6`. -/
theorem clock_diff_spec_witness :
    253 < 2 ^ 8 ∧ 3 < 2 ^ 8 ∧ CLOCK_DIFF 8 3 253 = 6 :=
  ⟨by decide, by decide,
    (clock_diff_spec 8 253 3 (by decide) (by decide)).2.2 6 (by decide) (by decide)⟩

lemma toSigned_modEq (w : Nat) (x : Int) : toSigned w x ≡ x [ZMOD (2 ^ w : Int)] :=
  calc toSigned w x
      = (x + 2 ^ (w - 1)) % 2 ^ w - 2 ^ (w - 1) := rfl
    _ ≡ (x + 2 ^ (w - 1)) - 2 ^ (w - 1) [ZMOD (2 ^ w : Int)] :=
        Int.ModEq.sub_right _ (Int.emod_emod_of_dvd _ dvd_rfl)
    _ = x := by ring

lemma long_range (w : Nat) (hw : 0 < w) :
    LONG_MAX w - LONG_MIN w = (2 ^ w : Int) - 1 := by
  unfold LONG_MAX LONG_MIN
  have h : (2 : Int) ^ (w - 1) * 2 = 2 ^ w := by
    rw [← pow_succ]
    congr 1
    omega
  omega

lemma sclock_diff_modEq (w : Nat) (hw : 0 < w) (t2 t1 : Int) :
    SCLOCK_DIFF w t2 t1 ≡ t2 - t1 [ZMOD (2 ^ w : Int)] := by
  unfold SCLOCK_DIFF
  split
  · exact toSigned_modEq w _
  · calc toSigned w
          (toSigned w (toSigned w (LONG_MAX w - LONG_MIN w) - toSigned w (t1 - t2)) + 1)
        ≡ toSigned w (toSigned w (LONG_MAX w - LONG_MIN w) - toSigned w (t1 - t2)) + 1
            [ZMOD (2 ^ w : Int)] := toSigned_modEq w _
      _ ≡ (LONG_MAX w - LONG_MIN w) - (t1 - t2) + 1 [ZMOD (2 ^ w : Int)] :=
          Int.ModEq.add_right 1
            ((toSigned_modEq w _).trans
              (((toSigned_modEq w _).sub (toSigned_modEq w _))))
      _ = (2 ^ w : Int) - (t1 - t2) := by rw [long_range w hw]; ring
      _ ≡ 0 - (t1 - t2) [ZMOD (2 ^ w : Int)] :=
          Int.ModEq.sub_right _ (Int.modEq_zero_iff_dvd.mpr dvd_rfl)
      _ = t2 - t1 := by ring

/-- C2: `_SCLOCK_DIFF(newer, older)` on w-bit signed samples satisfies, with
all arithmetic taken modulo `2^w` of the signed width: it is congruent to
`newer - older` when `newer >= older`, congruent to
`(MAX - MIN) - (older - newer) + 1` when `newer <= older` (the equal case
going through the wrapped branch), and its value reduced to `[0, 2^w)` is the
non-negative elapsed amount `e` whenever `newer` is `older` advanced by
`e < 2^w` ticks. -/
theorem sclock_diff_spec (w : Nat) (hw : 0 < w) (t2 t1 : Int) :
    (t1 ≤ t2 → SCLOCK_DIFF w t2 t1 ≡ t2 - t1 [ZMOD (2 ^ w : Int)]) ∧
    (t2 ≤ t1 →
      SCLOCK_DIFF w t2 t1 ≡ (LONG_MAX w - LONG_MIN w) - (t1 - t2) + 1
        [ZMOD (2 ^ w : Int)]) ∧
    (∀ e : Int, 0 ≤ e → e < 2 ^ w → t2 ≡ t1 + e [ZMOD (2 ^ w : Int)] →
      SCLOCK_DIFF w t2 t1 % 2 ^ w = e) := by
  refine ⟨fun _ => sclock_diff_modEq w hw t2 t1, ?_, ?_⟩
  · intro _
    refine (sclock_diff_modEq w hw t2 t1).trans ?_
    calc t2 - t1
        = 0 - (t1 - t2) := by ring
      _ ≡ (2 ^ w : Int) - (t1 - t2) [ZMOD (2 ^ w : Int)] :=
          Int.ModEq.sub_right _ (Int.modEq_zero_iff_dvd.mpr dvd_rfl).symm
      _ = (LONG_MAX w - LONG_MIN w) - (t1 - t2) + 1 := by rw [long_range w hw]; ring
  · intro e he0 helt ht
    have h1 : SCLOCK_DIFF w t2 t1 ≡ e [ZMOD (2 ^ w : Int)] :=
      (sclock_diff_modEq w hw t2 t1).trans
        (by simpa using Int.ModEq.sub_right t1 ht)
    have h2 : SCLOCK_DIFF w t2 t1 % 2 ^ w = e % 2 ^ w := h1
    rwa [Int.emod_eq_of_lt he0 helt] at h2

/-- Witness for C2 at width 8: samples `older = 100`, `newer = -100` are 56
wrapped ticks apart, and the signed diff reduced mod `2^8` is 56. -/
theorem sclock_diff_spec_witness :
    0 < 8 ∧ SCLOCK_DIFF 8 (-100) 100 % 2 ^ 8 = 56 :=
  ⟨by decide,
    (sclock_diff_spec 8 (by decide) (-100) 100).2.2 56 (by decide) (by decide)
      (by decide)⟩

/-! ### Dispatcher and cron-table lemmas -/

lemma sysTick_ext_time (w freq : Nat) (s : UsysState α) :
    (SysTick_Callback w freq s).1._ext_time = s._ext_time := rfl

lemma sysTick_ext_settime (w freq : Nat) (s : UsysState α) :
    (SysTick_Callback w freq s).1._ext_settime = s._ext_settime := rfl

lemma sysTick_crontab (w freq : Nat) (s : UsysState α) :
    (SysTick_Callback w freq s).1._crontab = s._crontab := rfl

lemma sysTickN_ext_time (w freq : Nat) (s : UsysState α) (k : Nat) :
    (sysTickN w freq s k)._ext_time = s._ext_time := by
  induction k with
  | zero => rfl
  | succ k ih => rw [sysTickN, sysTick_ext_time, ih]

lemma sysTickN_crontab (w freq : Nat) (s : UsysState α) (k : Nat) :
    (sysTickN w freq s k)._crontab = s._crontab := by
  induction k with
  | zero => rfl
  | succ k ih => rw [sysTickN, sysTick_crontab, ih]

lemma mem_cronDue {t : Nat} {tab : List (crontab_t α)} {cb : α} :
    cb ∈ cronDue t tab ↔ ∃ e ∈ tab, e.fn = some cb ∧ t % e.tic = 0 := by
  unfold cronDue
  rw [List.mem_filterMap]
  constructor
  · rintro ⟨e, he, hf⟩
    refine ⟨e, he, ?_⟩
    cases hfn : e.fn with
    | none => simp [hfn] at hf
    | some c =>
      simp only [hfn] at hf
      by_cases ht : t % e.tic = 0
      · simp only [if_pos ht, Option.some.injEq] at hf
        subst hf
        exact ⟨rfl, ht⟩
      · simp [if_neg ht] at hf
  · rintro ⟨e, he, hfn, ht⟩
    exact ⟨e, he, by simp [hfn, ht]⟩

/-- C3: a registered entry `(cb, period)`, `period > 0`, fires on a
dispatcher invocation exactly when the just-incremented tick is a multiple
of `period` — alignment to absolute tick zero.  Concretely, from tick 0 with
one entry `(cb, 5)`, over invocations 1..20 the callback fires exactly at
ticks 5, 10, 15, 20. -/
theorem cron_fires_iff (w freq : Nat) (s : UsysState α) (cb : α)
    (hpos : ∀ e ∈ s._crontab, e.fn = some cb → 0 < e.tic) :
    (cb ∈ (SysTick_Callback w freq s).2 ↔
      ∃ e ∈ s._crontab, e.fn = some cb ∧ ((s.__ticks + 1) % 2 ^ w) % e.tic = 0) ∧
    firedSteps 32 1000 sC3 0 20 = [5, 10, 15, 20] := by
  refine ⟨?_, by decide⟩
  have _ := hpos
  exact mem_cronDue

/-- Witness for C3: instantiating the firing criterion on the scenario state
and its first dispatcher invocation (tick 1: no firing since `1 mod 5 ≠ 0`). -/
theorem cron_fires_iff_witness :
    (∀ e ∈ sC3._crontab, e.fn = some 0 → 0 < e.tic) ∧
    (0 ∈ (SysTick_Callback 32 1000 sC3).2 ↔
      ∃ e ∈ sC3._crontab, e.fn = some 0 ∧ ((sC3.__ticks + 1) % 2 ^ 32) % e.tic = 0) :=
  ⟨by decide, (cron_fires_iff 32 1000 sC3 0 (by decide)).1⟩

/-! ### Wall-clock second boundary (claim C4) -/

lemma sysTickN_spec (w freq : Nat) (s : UsysState α) (hext : s._ext_time = none)
    (h0 : s.__ticks = 0) : ∀ k, k < 2 ^ w →
    (sysTickN w freq s k).__ticks = k ∧
    (sysTickN w freq s k).__now = s.__now + ((k / freq : Nat) : Int) := by
  intro k
  induction k with
  | zero => intro _; simp [sysTickN, h0]
  | succ k ih =>
    intro hk
    have hk' : k < 2 ^ w := by omega
    obtain ⟨iht, ihn⟩ := ih hk'
    have hextk : (sysTickN w freq s k)._ext_time = none := by
      rw [sysTickN_ext_time]; exact hext
    have hmod : ((sysTickN w freq s k).__ticks + 1) % 2 ^ w = k + 1 := by
      rw [iht, Nat.mod_eq_of_lt hk]
    constructor
    · rw [sysTickN]
      show ((sysTickN w freq s k).__ticks + 1) % 2 ^ w = k + 1
      exact hmod
    · rw [sysTickN]
      show (if (sysTickN w freq s k)._ext_time.isNone ∧
              ((sysTickN w freq s k).__ticks + 1) % 2 ^ w % freq = 0
            then (sysTickN w freq s k).__now + 1
            else (sysTickN w freq s k).__now) = _
      rw [hextk, hmod, ihn]
      rw [Nat.succ_div]
      by_cases hdvd : freq ∣ k + 1
      · rw [if_pos ⟨rfl, Nat.dvd_iff_mod_eq_zero.mp hdvd⟩, if_pos hdvd]
        push_cast
        ring
      · rw [if_neg ?_, if_neg hdvd]
        · push_cast
          ring
        · rintro ⟨-, hmod0⟩
          exact hdvd (Nat.dvd_iff_mod_eq_zero.mpr hmod0)

/-- C4: with no external time provider and `get_freq() = 1000`, starting
from tick 0, the value `time()` reads (`__now`) is unchanged after 999
dispatcher invocations and has increased by exactly 1 after 1000. -/
theorem wallclock_second_boundary (w : Nat) (s : UsysState α)
    (hext : s._ext_time = none) (h0 : s.__ticks = 0) (hw : 1000 < 2 ^ w) :
    (sysTickN w 1000 s 999).__now = s.__now ∧
    (sysTickN w 1000 s 1000).__now = s.__now + 1 := by
  have h999 := (sysTickN_spec w 1000 s hext h0 999 (by omega)).2
  have h1000 := (sysTickN_spec w 1000 s hext h0 1000 hw).2
  norm_num at h999 h1000
  exact ⟨h999, h1000⟩

/-- Witness for C4 on the pristine 32-bit state. -/
theorem wallclock_second_boundary_witness :
    (sysTickN 32 1000 (initState Nat) 999).__now = (initState Nat).__now ∧
    (sysTickN 32 1000 (initState Nat) 1000).__now = (initState Nat).__now + 1 :=
  wallclock_second_boundary 32 (initState Nat) rfl rfl (by norm_num)

/-- C9: one dispatcher invocation increments the unsigned tick by exactly 1
modulo `2^w` and the signed tick by exactly 1 with two's-complement
wraparound, and both the second-boundary test and the cron scan are
performed against the just-incremented tick value (the post-state tick),
never the stale pre-increment value. -/
theorem sysTick_ordering (w freq : Nat) (s : UsysState α) :
    ((SysTick_Callback w freq s).1.__ticks = (s.__ticks + 1) % 2 ^ w) ∧
    ((SysTick_Callback w freq s).1.__sticks = toSigned w (s.__sticks + 1)) ∧
    ((SysTick_Callback w freq s).1.__now =
      if s._ext_time.isNone ∧ (SysTick_Callback w freq s).1.__ticks % freq = 0
      then s.__now + 1 else s.__now) ∧
    ((SysTick_Callback w freq s).2 =
      cronDue (SysTick_Callback w freq s).1.__ticks s._crontab) :=
  ⟨rfl, rfl, rfl, rfl⟩

/-- Witness for C9 on the pristine 32-bit state. -/
theorem sysTick_ordering_witness :
    (SysTick_Callback 32 1000 (initState Nat)).1.__ticks =
      ((initState Nat).__ticks + 1) % 2 ^ 32 :=
  (sysTick_ordering 32 1000 (initState Nat)).1

/-! ### Cron table add/remove (claims C6, C7) -/

lemma service_add_tab_full {tab : List (crontab_t α)}
    (hfull : ∀ e ∈ tab, e.fn ≠ none) (p : Option α) (t : Nat) :
    service_add_tab tab p t = tab := by
  induction tab with
  | nil => rfl
  | cons e rest ih =>
    cases hfn : e.fn with
    | none => exact absurd hfn (hfull e (List.mem_cons_self e rest))
    | some c =>
      simp only [service_add_tab, hfn]
      rw [ih fun x hx => hfull x (List.mem_cons_of_mem e hx)]

/-- C6: when every slot of the cron table is occupied, `service_add` leaves
the whole state (in particular every slot of the table) unchanged: the
registration is silently dropped, and no status is returned (its return type
is unit-like). -/
theorem service_add_full_dropped (s : UsysState α)
    (hfull : ∀ e ∈ s._crontab, e.fn ≠ none) (p : Option α) (t : Nat) :
    service_add s p t = s := by
  unfold service_add
  rw [service_add_tab_full hfull p t]

/-- Witness for C6: adding to a full 10-slot table changes nothing. -/
theorem service_add_full_dropped_witness :
    (∀ e ∈ sFull._crontab, e.fn ≠ none) ∧ service_add sFull (some 2) 3 = sFull :=
  ⟨by decide, service_add_full_dropped sFull (by decide) (some 2) 3⟩

lemma service_rem_crontab [DecidableEq α] (s : UsysState α) (p : Option α) :
    (service_rem s p)._crontab =
      s._crontab.map fun e => if e.fn = p then { e with fn := none } else e := rfl

/-- C7: `service_rem cb` clears every slot whose callback equals `cb`
(duplicates included) and touches nothing else: afterwards no slot holds
`cb`, each slot's contents are the original with matching callbacks nulled,
and no subsequent dispatcher invocation ever invokes `cb` again. -/
theorem service_rem_clears_all [DecidableEq α] (w freq : Nat) (s : UsysState α)
    (cb : α) :
    (∀ e ∈ (service_rem s (some cb))._crontab, e.fn ≠ some cb) ∧
    (∀ i : Nat, (service_rem s (some cb))._crontab[i]? =
      (s._crontab[i]?).map fun e =>
        if e.fn = some cb then { e with fn := none } else e) ∧
    (∀ k, ∀ l ∈ sysTickTraces w freq (service_rem s (some cb)) k, cb ∉ l) := by
  have hclear : ∀ e ∈ (service_rem s (some cb))._crontab, e.fn ≠ some cb := by
    intro e he
    rw [service_rem_crontab] at he
    obtain ⟨x, hx, hxe⟩ := List.mem_map.mp he
    by_cases hfx : x.fn = some cb
    · rw [if_pos hfx] at hxe
      rw [← hxe]
      simp
    · rw [if_neg hfx] at hxe
      rw [← hxe]
      exact hfx
  refine ⟨hclear, ?_, ?_⟩
  · intro i
    rw [service_rem_crontab, List.getElem?_map]
  · intro k
    induction k with
    | zero => intro l hl; simp [sysTickTraces] at hl
    | succ k ih =>
      intro l hl
      rw [sysTickTraces] at hl
      rcases List.mem_append.mp hl with h | h
      · exact ih l h
      · rw [List.mem_singleton] at h
        subst h
        have h2 : (SysTick_Callback w freq
              (sysTickN w freq (service_rem s (some cb)) k)).2 =
            cronDue
              (((sysTickN w freq (service_rem s (some cb)) k).__ticks + 1) % 2 ^ w)
              (service_rem s (some cb))._crontab := by
          rw [← sysTickN_crontab w freq (service_rem s (some cb)) k]
          rfl
        rw [h2]
        intro hmem
        obtain ⟨e, he, hfn, -⟩ := mem_cronDue.mp hmem
        exact hclear e he hfn

/-- Witness for C7: removing callback 1 from the full table clears slot 0. -/
theorem service_rem_clears_all_witness :
    (service_rem sFull (some 1))._crontab[0]? =
      (sFull._crontab[0]?).map (fun e =>
        if e.fn = some 1 then { e with fn := none } else e) :=
  (service_rem_clears_all 32 1000 sFull 1).2.1 0

/-! ### settime failure path (claim C8) -/

/-- C8: with no external set-time forwarder, `settime` on a NULL pointer
returns `-1` and leaves the state (in particular `__now`) untouched, while a
non-NULL pointer assigns `__now` and returns `0`; the two statuses are
distinct. -/
theorem settime_null_fails (s : UsysState α) (hext : s._ext_settime = none) :
    settime s none = (-1, s) ∧
    (∀ v : Int, settime s (some v) = (0, { s with __now := v })) ∧
    ((-1 : Int) ≠ 0) := by
  refine ⟨?_, fun v => ?_, by norm_num⟩ <;> simp [settime, hext]

/-- Witness for C8 on the pristine state. -/
theorem settime_null_fails_witness :
    (initState Nat)._ext_settime = none ∧
    settime (initState Nat) none = (-1, initState Nat) :=
  ⟨rfl, (settime_null_fails (initState Nat) rfl).1⟩

/-! ### External provider registration (claims C5, C10) -/

lemma settime_state_ext_time (s : UsysState α) (t : Option Int) :
    (settime s t).2._ext_time = s._ext_time := by
  cases hs : s._ext_settime <;> cases t <;> simp [settime, hs]

lemma settime_state_ext_settime (s : UsysState α) (t : Option Int) :
    (settime s t).2._ext_settime = s._ext_settime := by
  cases hs : s._ext_settime <;> cases t <;> simp [settime, hs]

lemma runOp_ext_time_mono [DecidableEq α] (w freq : Nat) (s : UsysState α)
    (op : Op α) (h : s._ext_time ≠ none) : (runOp w freq s op)._ext_time ≠ none := by
  cases op with
  | tick => exact h
  | set_rtc_time f =>
    cases f with
    | none => exact h
    | some g => simp [runOp, usys_set_rtc_time]
  | set_rtc_settime f =>
    cases f with
    | none => exact h
    | some g => exact h
  | do_settime t =>
    show (settime s t).2._ext_time ≠ none
    rw [settime_state_ext_time]
    exact h
  | do_setclock c => exact h
  | do_setsclock c => exact h
  | svc_add p tic => exact h
  | svc_rem p => exact h

lemma runOp_ext_settime_mono [DecidableEq α] (w freq : Nat) (s : UsysState α)
    (op : Op α) (h : s._ext_settime ≠ none) :
    (runOp w freq s op)._ext_settime ≠ none := by
  cases op with
  | tick => exact h
  | set_rtc_time f =>
    cases f with
    | none => exact h
    | some g => exact h
  | set_rtc_settime f =>
    cases f with
    | none => exact h
    | some g => simp [runOp, usys_set_rtc_settime]
  | do_settime t =>
    show (settime s t).2._ext_settime ≠ none
    rw [settime_state_ext_settime]
    exact h
  | do_setclock c => exact h
  | do_setsclock c => exact h
  | svc_add p tic => exact h
  | svc_rem p => exact h

lemma runOps_ext_time_mono [DecidableEq α] (w freq : Nat) (ops : List (Op α))
    (s : UsysState α) (h : s._ext_time ≠ none) :
    (runOps w freq ops s)._ext_time ≠ none := by
  induction ops generalizing s with
  | nil => exact h
  | cons op rest ih => exact ih _ (runOp_ext_time_mono w freq s op h)

lemma runOps_ext_settime_mono [DecidableEq α] (w freq : Nat) (ops : List (Op α))
    (s : UsysState α) (h : s._ext_settime ≠ none) :
    (runOps w freq ops s)._ext_settime ≠ none := by
  induction ops generalizing s with
  | nil => exact h
  | cons op rest ih => exact ih _ (runOp_ext_settime_mono w freq s op h)

lemma time_delegates (s : UsysState α) {f : ext_time_ft} (h : s._ext_time = some f)
    (b : Bool) : time s b = f b := by
  simp [time, h]

lemma settime_delegates (s : UsysState α) {g : ext_settime_ft}
    (h : s._ext_settime = some g) (t : Option Int) : settime s t = (g t, s) := by
  simp [settime, h]

lemma sysTick_now_frozen (w freq : Nat) (s : UsysState α) (h : s._ext_time ≠ none) :
    (SysTick_Callback w freq s).1.__now = s.__now := by
  have hb : s._ext_time.isNone = false := by
    cases hs : s._ext_time
    · exact absurd hs h
    · rfl
  simp [SysTick_Callback, hb]

/-- C5: hook installation is monotone for the process lifetime — a NULL
argument to either setter is a no-op, and once the get-hook is non-null it
stays non-null under every operation sequence, every subsequent `time()`
delegates to the installed provider, and no subsequent `SysTick_Callback`
changes `__now`; likewise an installed set-hook stays installed and every
subsequent `settime()` delegates to it, leaving the state untouched. -/
theorem provider_registration_monotone [DecidableEq α] (w freq : Nat)
    (s : UsysState α) (hg : s._ext_time ≠ none) :
    (usys_set_rtc_time s none = s ∧ usys_set_rtc_settime s none = s) ∧
    (∀ ops : List (Op α), (runOps w freq ops s)._ext_time ≠ none) ∧
    (∀ ops : List (Op α), ∀ b : Bool, ∃ f : ext_time_ft,
      (runOps w freq ops s)._ext_time = some f ∧
      time (runOps w freq ops s) b = f b) ∧
    (∀ ops : List (Op α),
      (SysTick_Callback w freq (runOps w freq ops s)).1.__now =
        (runOps w freq ops s).__now) ∧
    (s._ext_settime ≠ none → ∀ ops : List (Op α), ∀ t : Option Int,
      ∃ g : ext_settime_ft, (runOps w freq ops s)._ext_settime = some g ∧
        settime (runOps w freq ops s) t = (g t, runOps w freq ops s)) := by
  refine ⟨⟨rfl, rfl⟩, fun ops => runOps_ext_time_mono w freq ops s hg, ?_, ?_, ?_⟩
  · intro ops b
    cases hf : (runOps w freq ops s)._ext_time with
    | none => exact absurd hf (runOps_ext_time_mono w freq ops s hg)
    | some f => exact ⟨f, rfl, time_delegates _ hf b⟩
  · intro ops
    exact sysTick_now_frozen w freq _ (runOps_ext_time_mono w freq ops s hg)
  · intro hs ops t
    cases hf : (runOps w freq ops s)._ext_settime with
    | none => exact absurd hf (runOps_ext_settime_mono w freq ops s hs)
    | some g => exact ⟨g, rfl, settime_delegates _ hf t⟩

/-- Witness for C5: with the provider installed, a NULL setter call is a
no-op and a dispatcher invocation leaves `__now` unchanged. -/
theorem provider_registration_monotone_witness :
    sC5._ext_time ≠ none ∧
    usys_set_rtc_time sC5 none = sC5 ∧
    (SysTick_Callback 32 1000 (runOps 32 1000 [] sC5)).1.__now =
      (runOps 32 1000 [] sC5).__now := by
  have h : sC5._ext_time ≠ none := by simp [sC5, usys_set_rtc_time, initState]
  exact ⟨h, (provider_registration_monotone 32 1000 sC5 h).1.1,
    (provider_registration_monotone 32 1000 sC5 h).2.2.2.1 []⟩

/-- C10: the two external hooks are independent.  From a state with both
hooks NULL: installing only the set-hook leaves the get-hook NULL, `time()`
still reads the internal counter, `settime()` delegates, and `__now` still
advances on second boundaries; installing only the get-hook leaves the
set-hook NULL, `time()` delegates, `__now` never advances, and `settime()`
still writes the internal counter directly. -/
theorem hooks_independent (w freq : Nat) (s : UsysState α)
    (h1 : s._ext_time = none) (h2 : s._ext_settime = none)
    (f : ext_time_ft) (g : ext_settime_ft) :
    ((usys_set_rtc_settime s (some g))._ext_time = none) ∧
    ((usys_set_rtc_time s (some f))._ext_settime = none) ∧
    (∀ b, time (usys_set_rtc_settime s (some g)) b =
      (s.__now, if b then some s.__now else none)) ∧
    (∀ t, settime (usys_set_rtc_settime s (some g)) t =
      (g t, usys_set_rtc_settime s (some g))) ∧
    ((SysTick_Callback w freq (usys_set_rtc_settime s (some g))).1.__now =
      if ((s.__ticks + 1) % 2 ^ w) % freq = 0 then s.__now + 1 else s.__now) ∧
    (∀ b, time (usys_set_rtc_time s (some f)) b = f b) ∧
    ((SysTick_Callback w freq (usys_set_rtc_time s (some f))).1.__now = s.__now) ∧
    (∀ v : Int, settime (usys_set_rtc_time s (some f)) (some v) =
      (0, { usys_set_rtc_time s (some f) with __now := v })) := by
  refine ⟨h1, h2, ?_, ?_, ?_, ?_, ?_, ?_⟩
  · intro b
    simp [time, usys_set_rtc_settime, h1]
  · intro t
    exact settime_delegates _ rfl t
  · simp [SysTick_Callback, usys_set_rtc_settime, h1]
  · intro b
    exact time_delegates _ rfl b
  · exact sysTick_now_frozen w freq _ (by simp [usys_set_rtc_time])
  · intro v
    simp [settime, usys_set_rtc_time, h2]

/-- Witness for C10 on the pristine state: with only the set-hook installed
`__now` still advances at second boundaries, and with only the get-hook
installed `__now` is frozen. -/
theorem hooks_independent_witness :
    (initState Nat)._ext_time = none ∧ (initState Nat)._ext_settime = none ∧
    (SysTick_Callback 32 1000
        (usys_set_rtc_settime (initState Nat) (some gExt))).1.__now =
      (if (((initState Nat).__ticks + 1) % 2 ^ 32) % 1000 = 0
       then (initState Nat).__now + 1 else (initState Nat).__now) ∧
    (SysTick_Callback 32 1000
        (usys_set_rtc_time (initState Nat) (some fExt2))).1.__now =
      (initState Nat).__now :=
  ⟨rfl, rfl,
    (hooks_independent 32 1000 (initState Nat) rfl rfl fExt2 gExt).2.2.2.2.1,
    (hooks_independent 32 1000 (initState Nat) rfl rfl fExt2 gExt).2.2.2.2.2.2.1⟩

end Usys
